import Mathlib

/-!
Verification of `concat-writable-streams` (`src/index.ts`).

The repository implements `ConcatSink`, an `UnderlyingSink` that routes a
flat sequence of chunks into a succession of writable streams pulled from a
supply (an iterable or a generator).  We give a shallow embedding of the
sink's state machine together with the collaborators the tests use
(`LimitedWritableStream` over an in-memory collector, and a generator supply
with a `finally` block around each `yield`).

State is passed explicitly; every operation returns
`result × state × event list`, where the event list records the externally
observable actions the operation performed, in order (calls into the supply
cursor, per-item generator cleanup, lock release/acquire, and the
close/abort/write calls forwarded to the active consumer).
-/

namespace ConcatWS

/-- Values thrown in the JS code: `undefined` reasons, `TypeError`s and
`RangeError`s. -/
inductive JsError where
  | undef
  | typeError (msg : String)
  | rangeError (msg : String)
deriving Repr, DecidableEq

/-- The error thrown by `LimitedWritableStream.write` when the chunk limit
is exceeded (`RangeError("Exceeded chunk limit of '${size}'")`). -/
def limitErr (size : Nat) : JsError :=
  JsError.rangeError ("Exceeded chunk limit of " ++ toString size)

/-- The error thrown by `ConcatSink.next` when the supply is exhausted
(`RangeError("Writable stream iterator has ended")`). -/
def exhaustedErr : JsError :=
  JsError.rangeError "Writable stream iterator has ended"

/-- Observable events emitted by the sink's operations, in execution order. -/
inductive Ev where
  /-- `this.#iter.next(reason)` was invoked (`none` models `undefined`). -/
  | iterNextCall (reason : Option JsError)
  /-- the generator supply ran the `finally` block guarding item `item`. -/
  | cleanupRun (item : Nat)
  /-- `this.#iter.return(undefined)` was invoked (generator supplies only;
  array iterators have no `return` method). -/
  | iterReturnCall
  /-- `this.#iter.throw(reason)` was invoked (generator supplies only). -/
  | iterThrowCall (reason : JsError)
  /-- `releaseLock()` actually released consumer `c`. -/
  | release (c : Nat)
  /-- `getWriter()` acquired an exclusive handle on consumer `c`. -/
  | acquire (c : Nat)
  /-- consumer `c` accepted chunk `chunk`. -/
  | targetWrite (c : Nat) (chunk : Nat)
  /-- `close()` was forwarded to consumer `c`. -/
  | targetClose (c : Nat)
  /-- `abort(reason)` was forwarded to consumer `c`. -/
  | targetAbort (c : Nat) (reason : JsError)
deriving Repr, DecidableEq

/-- State of one consumer: a `LimitedWritableStream` of capacity `capacity`
wrapping an in-memory collector (`buffer` is the data it accepted). -/
structure Consumer where
  capacity : Nat
  read : Nat
  buffer : List Nat
  locked : Bool
  closed : Bool
  aborted : Bool
  errored : Option JsError
deriving Repr, DecidableEq

/-- A freshly constructed consumer stream of the given capacity. -/
def mkConsumer (cap : Nat) : Consumer :=
  { capacity := cap, read := 0, buffer := [], locked := false,
    closed := false, aborted := false, errored := none }

/-- The two supply shapes exercised by the tests: a plain array
(`Iterable`), and a generator with a `finally` block around each `yield`. -/
inductive SupplyKind where
  | array
  | gen
deriving Repr, DecidableEq

/-- Point update of the consumer table. -/
def upd (f : Nat → Consumer) (j : Nat) (c : Consumer) : Nat → Consumer :=
  fun i => if i = j then c else f i

/-- The whole `ConcatSink` state.  The supply yields, in order, fresh
consumer streams whose capacities are listed in `caps`; `idx` counts the
items yielded so far, `iterDone` records that the iterator has completed,
and `cleanups` counts executions of the generator's `finally` block.
`writer` is the index of the consumer the current
`WritableStreamDefaultWriter` points at, and `writerReleased` whether
`releaseLock()` has been called on that handle (the code never clears
`this.#writer`). -/
structure Sink where
  kind : SupplyKind
  caps : List Nat
  preventClose : Bool
  preventAbort : Bool
  started : Bool
  idx : Nat
  iterDone : Bool
  cleanups : Nat
  cons : Nat → Consumer
  writer : Option Nat
  writerReleased : Bool

/-- The sink as constructed (`new ConcatSink(gen, options)`): no iterator,
no writer. -/
def initSink (kind : SupplyKind) (caps : List Nat)
    (preventClose preventAbort : Bool) : Sink :=
  { kind := kind, caps := caps, preventClose := preventClose,
    preventAbort := preventAbort, started := false, idx := 0,
    iterDone := false, cleanups := 0, cons := fun _ => mkConsumer 0,
    writer := none, writerReleased := false }

/-- `this.#iter.next(reason)`: resuming a generator suspended at a `yield`
first runs the `finally` block of the departed item, then either yields the
next consumer (freshly constructed with the next capacity) or completes.
An array iterator yields without cleanup.  Returns the yielded consumer
index, or `none` for a done result. -/
def Sink.iterNextRaw (s : Sink) (reason : Option JsError) :
    Option Nat × Sink × List Ev :=
  if s.iterDone then (none, s, [Ev.iterNextCall reason])
  else
    let run := s.kind = SupplyKind.gen ∧ 0 < s.idx
    let s1 := if run then { s with cleanups := s.cleanups + 1 } else s
    let ev1 := if run then [Ev.cleanupRun (s.idx - 1)] else []
    match s1.caps.get? s1.idx with
    | some cap =>
        (some s1.idx,
         { s1 with idx := s1.idx + 1,
                   cons := upd s1.cons s1.idx (mkConsumer cap) },
         Ev.iterNextCall reason :: ev1)
    | none =>
        (none, { s1 with iterDone := true }, Ev.iterNextCall reason :: ev1)

/-- `this.#iter?.return?.(undefined)`: an array iterator has no `return`
method, so nothing happens; a generator suspended at a `yield` runs that
item's `finally` block and completes. -/
def Sink.iterReturn (s : Sink) : Sink × List Ev :=
  match s.kind with
  | SupplyKind.array => (s, [])
  | SupplyKind.gen =>
      if ¬ s.iterDone ∧ 0 < s.idx then
        ({ s with cleanups := s.cleanups + 1, iterDone := true },
         [Ev.iterReturnCall, Ev.cleanupRun (s.idx - 1)])
      else
        ({ s with iterDone := true }, [Ev.iterReturnCall])

/-- `this.#iter?.throw?.(reason)`: an array iterator has no `throw` method;
a generator suspended at a `yield` runs that item's `finally` block and, as
nothing catches the injected exception, rethrows it (the returned `Bool`
says whether the call threw). -/
def Sink.iterThrow (s : Sink) (reason : JsError) : Bool × Sink × List Ev :=
  match s.kind with
  | SupplyKind.array => (false, s, [])
  | SupplyKind.gen =>
      if ¬ s.iterDone ∧ 0 < s.idx then
        (true, { s with cleanups := s.cleanups + 1, iterDone := true },
         [Ev.iterThrowCall reason, Ev.cleanupRun (s.idx - 1)])
      else
        (true, { s with iterDone := true }, [Ev.iterThrowCall reason])

/-- `await this.#writer.ready` for the handle on consumer `i`: rejects with
a `TypeError` on a released handle, and with the stream's stored error on an
errored stream. -/
def Sink.writerReady (s : Sink) (i : Nat) :
    Except JsError Unit × Sink × List Ev :=
  if s.writerReleased then
    (Except.error (JsError.typeError "Writer released"), s, [])
  else
    match (s.cons i).errored with
    | some e => (Except.error e, s, [])
    | none => (Except.ok (), s, [])

/-- `await this.#writer.write(chunk)` on consumer `i`, running
`LimitedWritableStream`'s underlying `write`: past the chunk limit it throws
a `RangeError` (erroring the stream); otherwise the chunk is counted and
forwarded to the in-memory collector. -/
def Sink.writerWrite (s : Sink) (i c : Nat) :
    Except JsError Unit × Sink × List Ev :=
  if s.writerReleased then
    (Except.error (JsError.typeError "Writer released"), s, [])
  else
    let con := s.cons i
    match con.errored with
    | some e => (Except.error e, s, [])
    | none =>
        if con.closed then
          (Except.error (JsError.typeError "Stream closed"), s, [])
        else if con.capacity < con.read + 1 then
          (Except.error (limitErr con.capacity),
           { s with
               cons := upd s.cons i
                         ({ con with errored := some (limitErr con.capacity) }) },
           [])
        else
          (Except.ok (),
           { s with
               cons := upd s.cons i
                         ({ con with read := con.read + 1,
                                     buffer := con.buffer ++ [c] }) },
           [Ev.targetWrite i c])

/-- `await this.#writer?.close()`: optional-chains to a no-op without a
writer; rejects with a `TypeError` on a released handle or an
already-closed stream, with the stored error on an errored stream, and
otherwise closes the consumer. -/
def Sink.writerClose (s : Sink) : Except JsError Unit × Sink × List Ev :=
  match s.writer with
  | none => (Except.ok (), s, [])
  | some i =>
      if s.writerReleased then
        (Except.error (JsError.typeError "Writer released"), s, [])
      else
        let con := s.cons i
        match con.errored with
        | some e => (Except.error e, s, [])
        | none =>
            if con.closed then
              (Except.error (JsError.typeError "Stream closed"), s, [])
            else
              (Except.ok (),
               { s with cons := upd s.cons i ({ con with closed := true }) },
               [Ev.targetClose i])

/-- `await this.#writer?.abort(reason)`: optional-chains to a no-op without
a writer; rejects with a `TypeError` on a released handle; on a closed or
errored stream it resolves without doing anything; otherwise it errors the
stream with `reason` and forwards the abort to the consumer. -/
def Sink.writerAbort (s : Sink) (reason : JsError) :
    Except JsError Unit × Sink × List Ev :=
  match s.writer with
  | none => (Except.ok (), s, [])
  | some i =>
      if s.writerReleased then
        (Except.error (JsError.typeError "Writer released"), s, [])
      else
        let con := s.cons i
        if con.closed ∨ con.errored.isSome then (Except.ok (), s, [])
        else
          (Except.ok (),
           { s with
               cons := upd s.cons i
                         ({ con with aborted := true, errored := some reason }) },
           [Ev.targetAbort i reason])

/-- `this.#writer?.releaseLock()`: releases the current handle if one is
held and not yet released; otherwise a no-op. -/
def Sink.releaseCurrent (s : Sink) : Sink × List Ev :=
  match s.writer with
  | none => (s, [])
  | some i =>
      if s.writerReleased then (s, [])
      else
        let con := s.cons i
        ({ s with writerReleased := true,
                  cons := upd s.cons i ({ con with locked := false }) },
         [Ev.release i])

/-- `private async next(reason?)`: pulls the next consumer from the cursor
(throwing a `RangeError` on a done result), releases the old handle, and
acquires an exclusive handle on the yielded consumer.  Returns the new
consumer's index. -/
def Sink.next (s : Sink) (reason : Option JsError) :
    Except JsError Nat × Sink × List Ev :=
  if ¬ s.started then
    (Except.error (JsError.typeError "Iterator is undefined"), s, [])
  else
    match s.iterNextRaw reason with
    | (none, s, ev) => (Except.error exhaustedErr, s, ev)
    | (some j, s, ev) =>
        match s.releaseCurrent with
        | (s, ev2) =>
            if (s.cons j).locked then
              (Except.error (JsError.typeError "Stream locked"), s, ev ++ ev2)
            else
              let con := s.cons j
              (Except.ok j,
               { s with writer := some j, writerReleased := false,
                        cons := upd s.cons j ({ con with locked := true }) },
               ev ++ ev2 ++ [Ev.acquire j])

/-- `async start()`: obtains the iterator and pulls the first consumer. -/
def Sink.start (s : Sink) : Except JsError Unit × Sink × List Ev :=
  let s := { s with started := true }
  match s.next none with
  | (Except.error e, s, ev) => (Except.error e, s, ev)
  | (Except.ok _, s, ev) => (Except.ok (), s, ev)

/-- `await writer.ready; await writer.write(chunk)` — the body of `write`'s
`try` block, and of its retry after an advance. -/
def Sink.tryChunk (s : Sink) (i c : Nat) :
    Except JsError Unit × Sink × List Ev :=
  match s.writerReady i with
  | (Except.error e, s, ev) => (Except.error e, s, ev)
  | (Except.ok _, s, ev) =>
      match s.writerWrite i c with
      | (r, s, ev2) => (r, s, ev ++ ev2)

/-- `async write(chunk)`: requires a writer; on any failure of
`ready`/`write`, advances once with the failure as reason and resubmits the
same chunk to the new handle once. -/
def Sink.write (s : Sink) (c : Nat) : Except JsError Unit × Sink × List Ev :=
  match s.writer with
  | none => (Except.error (JsError.typeError "Writer is undefined"), s, [])
  | some i =>
      match s.tryChunk i c with
      | (Except.ok _, s, ev) => (Except.ok (), s, ev)
      | (Except.error e, s, ev) =>
          match s.next (some e) with
          | (Except.error e2, s, ev2) => (Except.error e2, s, ev ++ ev2)
          | (Except.ok j, s, ev2) =>
              match s.tryChunk j c with
              | (r, s, ev3) => (r, s, ev ++ ev2 ++ ev3)

/-- `async close()`: signals completion to the cursor, then (unless
`preventClose`) closes the active consumer, then releases the handle. -/
def Sink.close (s : Sink) : Except JsError Unit × Sink × List Ev :=
  match s.iterReturn with
  | (s, ev1) =>
      if s.preventClose then
        match s.releaseCurrent with
        | (s, ev3) => (Except.ok (), s, ev1 ++ ev3)
      else
        match s.writerClose with
        | (Except.error e, s, ev2) => (Except.error e, s, ev1 ++ ev2)
        | (Except.ok _, s, ev2) =>
            match s.releaseCurrent with
            | (s, ev3) => (Except.ok (), s, ev1 ++ ev2 ++ ev3)

/-- `async abort(reason)`: signals failure into the cursor with any thrown
exception swallowed, then (unless `preventAbort`) aborts the active
consumer with the same reason, then releases the handle. -/
def Sink.abort (s : Sink) (reason : JsError) :
    Except JsError Unit × Sink × List Ev :=
  match s.iterThrow reason with
  | (_, s, ev1) =>
      if s.preventAbort then
        match s.releaseCurrent with
        | (s, ev3) => (Except.ok (), s, ev1 ++ ev3)
      else
        match s.writerAbort reason with
        | (Except.error e, s, ev2) => (Except.error e, s, ev1 ++ ev2)
        | (Except.ok _, s, ev2) =>
            match s.releaseCurrent with
            | (s, ev3) => (Except.ok (), s, ev1 ++ ev2 ++ ev3)

/-- The write phase of `readable.pipeTo(sink)`: writes the chunks in order,
stopping at the first failure (a rejected sink write errors the stream and
the pipe, with no close). -/
def runWrites (s : Sink) (chunks : List Nat) : Except JsError Unit × Sink :=
  match chunks with
  | [] => (Except.ok (), s)
  | c :: rest =>
      match s.write c with
      | (Except.ok _, s, _) => runWrites s rest
      | (Except.error e, s, _) => (Except.error e, s)

/-- `pipeTo` after `start`: write every chunk, then close the sink. -/
def runPipe (s : Sink) (chunks : List Nat) : Except JsError Unit × Sink :=
  match runWrites s chunks with
  | (Except.ok _, s) =>
      match s.close with
      | (r, s, _) => (r, s)
  | (Except.error e, s) => (Except.error e, s)

/-- The sink state right after a successful `start`. -/
def afterStart (kind : SupplyKind) (caps : List Nat) : Sink :=
  ((initSink kind caps false false).start).2.1

/-- A full `pipeTo` run: construct the sink over fresh consumers with the
given capacities, start it, write all chunks, close. -/
def pipeConcat (kind : SupplyKind) (caps : List Nat)
    (preventClose preventAbort : Bool) (chunks : List Nat) :
    Except JsError Unit × Sink :=
  match (initSink kind caps preventClose preventAbort).start with
  | (Except.error e, s, _) => (Except.error e, s)
  | (Except.ok _, s, _) => runPipe s chunks

/-! ### Characterization of the states reached while piping through
consumers of uniform capacity `K` -/

/-- Index of the consumer holding the active handle after `m` chunks have
been accepted (the cursor advances lazily, on the write that overflows). -/
def curIdx (K m : Nat) : Nat := if m = 0 then 0 else (m - 1) / K

/-- State of consumer `i` after the first `m` chunks of `full` have been
piped through consumers of uniform capacity `K`. -/
def midCons (K : Nat) (full : List Nat) (m i : Nat) : Consumer :=
  { capacity := K,
    read := min K (m - i * K),
    buffer := (full.drop (i * K)).take (min K (m - i * K)),
    locked := decide (i = curIdx K m),
    closed := false, aborted := false,
    errored := if (i + 1) * K < m then some (limitErr K) else none }

/-- Full sink state after `m` chunks of `full` have been piped through a
sink over `N` fresh consumers of capacity `K` (no prevent options). -/
def midState (kind : SupplyKind) (N K : Nat) (full : List Nat) (m : Nat) :
    Sink :=
  { kind := kind, caps := List.replicate N K, preventClose := false,
    preventAbort := false, started := true, idx := curIdx K m + 1,
    iterDone := false,
    cleanups := if kind = SupplyKind.gen then curIdx K m else 0,
    cons := fun i =>
      if i ≤ curIdx K m then midCons K full m i else mkConsumer 0,
    writer := some (curIdx K m), writerReleased := false }

theorem curIdx_zero (K : Nat) : curIdx K 0 = 0 := rfl

theorem curIdx_mul_le (K m : Nat) : curIdx K m * K ≤ m := by
  unfold curIdx
  split
  · simp
  · have h1 := Nat.div_mul_le_self (m - 1) K
    omega

theorem le_curIdx_succ_mul (K m : Nat) (hK : 1 ≤ K) :
    m ≤ (curIdx K m + 1) * K := by
  unfold curIdx
  split
  · omega
  · have h1 := Nat.div_add_mod (m - 1) K
    have h2 := Nat.mod_lt (m - 1) hK
    have h3 : (m - 1) / K * K + K = ((m - 1) / K + 1) * K := by ring
    have h4 : K * ((m - 1) / K) = (m - 1) / K * K := Nat.mul_comm _ _
    omega

theorem curIdx_succ (K m : Nat) : curIdx K (m + 1) = m / K := by
  simp [curIdx]

theorem curIdx_succ_of_lt (K m : Nat) (h : m < (curIdx K m + 1) * K) :
    curIdx K (m + 1) = curIdx K m := by
  have hK : 0 < K := by
    rcases Nat.eq_zero_or_pos K with h0 | h0
    · simp [h0] at h
    · exact h0
  have hle : curIdx K m ≤ m / K := by
    rw [Nat.le_div_iff_mul_le hK]
    exact curIdx_mul_le K m
  have hlt : m / K < curIdx K m + 1 := by
    rw [Nat.div_lt_iff_lt_mul hK]
    exact h
  rw [curIdx_succ]
  omega

theorem curIdx_succ_of_full (K m : Nat) (hK : 1 ≤ K)
    (h : m = (curIdx K m + 1) * K) :
    curIdx K (m + 1) = curIdx K m + 1 := by
  rw [curIdx_succ]
  conv_lhs => rw [h]
  exact Nat.mul_div_cancel _ hK

theorem curIdx_mul_le_sub (K m : Nat) (hm : 1 ≤ m) :
    curIdx K m * K ≤ m - 1 := by
  unfold curIdx
  split
  · omega
  · exact Nat.div_mul_le_self (m - 1) K

theorem start_mid (kind : SupplyKind) (N K : Nat) (full : List Nat)
    (hN : 1 ≤ N) :
    (initSink kind (List.replicate N K) false false).start =
      (Except.ok (), midState kind N K full 0,
       [Ev.iterNextCall none, Ev.acquire 0]) := by
  have hrep : (List.replicate N K)[0]? = some K := by
    simp [List.getElem?_replicate]
    omega
  simp [Sink.start, Sink.next, initSink, Sink.iterNextRaw,
    Sink.releaseCurrent, hrep, midState, upd, mkConsumer, curIdx,
    Prod.mk.injEq, Sink.mk.injEq]
  funext i
  by_cases hi : i = 0
  · simp [hi, upd, midCons, curIdx, mkConsumer]
  · simp [hi, upd, midCons, curIdx, mkConsumer, Nat.le_zero]

theorem write_step (kind : SupplyKind) (N K : Nat) (full : List Nat)
    (m : Nat) (hm : m < N * K) (hml : m < full.length) :
    ((midState kind N K full m).write (full.getD m 0)).1 = Except.ok () ∧
    ((midState kind N K full m).write (full.getD m 0)).2.1 =
      midState kind N K full (m + 1) := by
  have hK : 1 ≤ K := by
    rcases Nat.eq_zero_or_pos K with h0 | h0
    · rw [h0, Nat.mul_zero] at hm
      omega
    · exact h0
  have hA : curIdx K m * K ≤ m := curIdx_mul_le K m
  have hB : m ≤ (curIdx K m + 1) * K := le_curIdx_succ_mul K m hK
  have hBn : ¬ ((curIdx K m + 1) * K < m) := not_lt.2 hB
  have hgd : full.getD m 0 = full[m] := List.getD_eq_getElem full 0 hml
  have hE : (curIdx K m + 1) * K = curIdx K m * K + K := by ring
  rcases lt_or_eq_of_le hB with hc | hc
  · -- the current consumer still has room: the chunk is accepted
    have hcur : curIdx K (m + 1) = curIdx K m := curIdx_succ_of_lt K m hc
    have hmin : min K (m - curIdx K m * K) = m - curIdx K m * K :=
      min_eq_right (by omega)
    have hcap : ¬ (K < m - curIdx K m * K + 1) := by omega
    simp [Sink.write, Sink.tryChunk, Sink.writerReady, Sink.writerWrite,
      midState, midCons, hBn, hmin, hcap, upd]
    refine ⟨hcur.symm, by rw [hcur], ?_, hcur.symm⟩
    funext i
    by_cases hij : i = curIdx K m
    · have hmin2 : K ⊓ (m + 1 - curIdx K m * K) = m + 1 - curIdx K m * K :=
        min_eq_right (by omega)
      have hsome : full[m]? = some full[m] := List.getElem?_eq_getElem hml
      have htk : (m + 1 : Nat) - curIdx K m * K = (m - curIdx K m * K) + 1 := by
        omega
      have hdropm :
          (List.drop (curIdx K m * K) full)[m - curIdx K m * K]? = full[m]? := by
        rw [List.getElem?_drop]
        congr 1
        omega
      have hbuf : List.take (m + 1 - curIdx K m * K)
            (List.drop (curIdx K m * K) full) =
          List.take (m - curIdx K m * K) (List.drop (curIdx K m * K) full)
            ++ [full[m]] := by
        rw [htk, List.take_succ, hdropm, hsome]
        rfl
      simp [upd, hij, hcur, hmin2, hbuf, hsome]
      constructor
      · omega
      · rw [if_neg (by omega)]
    · by_cases hile : i ≤ curIdx K m
      · have hm1 : 1 ≤ m := by
          rcases Nat.eq_zero_or_pos m with h0 | h0
          · subst h0
            rw [curIdx_zero] at hij hile
            omega
          · exact h0
        have hsub : curIdx K m * K ≤ m - 1 := curIdx_mul_le_sub K m hm1
        have h1 : (i + 1) * K ≤ curIdx K m * K :=
          Nat.mul_le_mul_right K (by omega)
        have h2 : (i + 1) * K = i * K + K := by ring
        have hminL : K ⊓ (m - i * K) = K := min_eq_left (by omega)
        have hminL2 : K ⊓ (m + 1 - i * K) = K := min_eq_left (by omega)
        have he1 : (i + 1) * K < m := by omega
        have he2 : (i + 1) * K < m + 1 := by omega
        simp [upd, hij, hile, hcur, hminL, hminL2, he1, he2]
      · simp [upd, hij, hile, hcur]
  · -- the current consumer is full: the write overflows and advances
    have hcur2 : curIdx K (m + 1) = curIdx K m + 1 :=
      curIdx_succ_of_full K m hK hc
    have hjN : curIdx K m + 1 < N := by
      apply Nat.lt_of_mul_lt_mul_right (a := K)
      rw [← hc]
      exact hm
    have hrep2 : (List.replicate N K)[curIdx K m + 1]? = some K := by
      simp [List.getElem?_replicate, hjN]
    have hmK : m - curIdx K m * K = K := by omega
    have hminK : K ⊓ (m - curIdx K m * K) = K := by
      rw [hmK, Nat.min_self]
    have hE2 : (curIdx K m + 2) * K = (curIdx K m + 1) * K + K := by ring
    have hK0 : K ≠ 0 := by omega
    cases kind <;>
      simp [Sink.write, Sink.tryChunk, Sink.writerReady, Sink.writerWrite,
        Sink.next, Sink.iterNextRaw, Sink.releaseCurrent, midState, midCons,
        hBn, hminK, hrep2, upd, hK0, hcur2, mkConsumer]
    all_goals
      funext i
      by_cases hij1 : i = curIdx K m + 1
      · have hr1 : m + 1 - (curIdx K m + 1) * K = 1 := by omega
        have hm1K : K ⊓ (1 : Nat) = 1 := min_eq_right hK
        have hdrop : List.drop ((curIdx K m + 1) * K) full =
            full[m] :: List.drop (m + 1) full := by
          rw [← hc]
          exact List.drop_eq_getElem_cons hml
        have hgd2 : full[m]?.getD 0 = full[m] := by
          rw [List.getElem?_eq_getElem hml]
          rfl
        have herr : ¬ ((curIdx K m + 1 + 1) * K < m + 1) := by
          have : (curIdx K m + 1 + 1) * K = (curIdx K m + 1) * K + K := by
            ring
          omega
        have htake : List.take 1 (List.drop m full) = [full[m]] := by
          rw [List.drop_eq_getElem_cons hml, List.take_succ_cons,
            List.take_zero]
        simp [hij1, upd, hr1, hm1K, hdrop, hgd2, herr, htake]
      · by_cases hij : i = curIdx K m
        · have hminL3 : K ⊓ (m + 1 - curIdx K m * K) = K :=
            min_eq_left (by omega)
          have htr : (curIdx K m + 1) * K < m + 1 := by omega
          simp [hij, hij1, upd, hminL3, htr, hminK]
        · by_cases hile : i ≤ curIdx K m
          · have hm1 : 1 ≤ m := by omega
            have hsub : curIdx K m * K ≤ m - 1 := curIdx_mul_le_sub K m hm1
            have h1 : (i + 1) * K ≤ curIdx K m * K :=
              Nat.mul_le_mul_right K (by omega)
            have h2 : (i + 1) * K = i * K + K := by ring
            have hminL : K ⊓ (m - i * K) = K := min_eq_left (by omega)
            have hminL2 : K ⊓ (m + 1 - i * K) = K := min_eq_left (by omega)
            have he1 : (i + 1) * K < m := by omega
            have he2 : (i + 1) * K < m + 1 := by omega
            have hile2 : i ≤ curIdx K m + 1 := by omega
            simp [upd, hij, hij1, hile, hile2, hminL, hminL2, he1, he2]
          · have hile2 : ¬ (i ≤ curIdx K m + 1) := by omega
            simp [upd, hij, hij1, hile, hile2]


theorem write_exhaust (kind : SupplyKind) (N K : Nat) (full : List Nat)
    (hN : 1 ≤ N) (hK : 1 ≤ K) :
    ((midState kind N K full (N * K)).write (full.getD (N * K) 0)).1 =
      Except.error exhaustedErr := by
  obtain ⟨M, rfl⟩ : ∃ t, N = t + 1 := ⟨N - 1, by omega⟩
  have e1 : (M + 1) * K = M * K + K := by ring
  have hj : curIdx K ((M + 1) * K) = M := by
    have hne : ¬ ((M + 1) * K = 0) := by omega
    unfold curIdx
    rw [if_neg hne]
    have h1 : M ≤ ((M + 1) * K - 1) / K := by
      rw [Nat.le_div_iff_mul_le hK]
      omega
    have h2 : ((M + 1) * K - 1) / K < M + 1 := by
      rw [Nat.div_lt_iff_lt_mul hK]
      omega
    omega
  have hrepN : (List.replicate (M + 1) K)[M + 1]? = (none : Option Nat) := by
    simp [List.getElem?_replicate]
  have hmK : (M + 1) * K - M * K = K := by omega
  have hminK : K ⊓ ((M + 1) * K - M * K) = K := by
    rw [hmK, Nat.min_self]
  have hBn : ¬ ((M + 1) * K < (M + 1) * K) := by omega
  have hcap : K < K + 1 := Nat.lt_succ_self K
  cases kind <;>
    simp [Sink.write, Sink.tryChunk, Sink.writerReady, Sink.writerWrite,
      Sink.next, Sink.iterNextRaw, midState, midCons, hj, hBn, hminK,
      hrepN, hcap, upd]


theorem runWrites_mid (kind : SupplyKind) (N K : Nat) (full : List Nat)
    (hN : 1 ≤ N) (hK : 1 ≤ K) :
    ∀ n m, full.length - m = n → m ≤ N * K → m ≤ full.length →
      (full.length ≤ N * K →
        runWrites (midState kind N K full m) (full.drop m) =
          (Except.ok (), midState kind N K full full.length)) ∧
      (N * K < full.length →
        (runWrites (midState kind N K full m) (full.drop m)).1 =
          Except.error exhaustedErr) := by
  intro n
  induction n with
  | zero =>
      intro m hn hmNK hml
      have hm : m = full.length := by omega
      subst hm
      constructor
      · intro _
        simp [runWrites, List.drop_length]
      · intro hlt
        omega
  | succ n ih =>
      intro m hn hmNK hml
      have hmlt : m < full.length := by omega
      have hdropc : full.drop m = full.getD m 0 :: full.drop (m + 1) := by
        rw [List.drop_eq_getElem_cons hmlt, List.getD_eq_getElem full 0 hmlt]
      rcases lt_or_eq_of_le hmNK with hlt | heq
      · obtain ⟨h1, h2⟩ := write_step kind N K full m hlt hmlt
        rcases hww : (midState kind N K full m).write (full.getD m 0)
          with ⟨r, s2, ev⟩
        rw [hww] at h1 h2
        dsimp only at h1 h2
        subst h1
        subst h2
        have hih := ih (m + 1) (by omega) (by omega) (by omega)
        constructor
        · intro hle
          rw [hdropc]
          simp only [runWrites]
          rw [hww]
          exact hih.1 hle
        · intro hgt
          rw [hdropc]
          simp only [runWrites]
          rw [hww]
          exact hih.2 hgt
      · subst heq
        have hw := write_exhaust kind N K full hN hK
        rcases hww : (midState kind N K full (N * K)).write
            (full.getD (N * K) 0) with ⟨r, s2, ev⟩
        rw [hww] at hw
        dsimp only at hw
        subst hw
        constructor
        · intro hle
          omega
        · intro _
          rw [hdropc]
          simp only [runWrites]
          rw [hww]


theorem close_mid (kind : SupplyKind) (N K : Nat) (full : List Nat) (m : Nat)
    (hcap : m ≤ (curIdx K m + 1) * K) :
    ((midState kind N K full m).close).1 = Except.ok () ∧
    (∀ i, (((midState kind N K full m).close).2.1.cons i).locked = false) ∧
    (∀ i, (((midState kind N K full m).close).2.1.cons i).buffer =
      ((midState kind N K full m).cons i).buffer) ∧
    ((midState kind N K full m).close).2.1.cleanups =
      (if kind = SupplyKind.gen then curIdx K m + 1 else 0) := by
  have hBn : ¬ ((curIdx K m + 1) * K < m) := not_lt.2 hcap
  cases kind <;>
    simp [Sink.close, Sink.iterReturn, Sink.writerClose, Sink.releaseCurrent,
      midState, midCons, hBn, upd]
  all_goals
    constructor
    · intro i
      by_cases hij : i = curIdx K m
      · simp [hij]
      · by_cases hile : i ≤ curIdx K m
        · simp [hij, hile]
        · simp [hij, hile, mkConsumer]
    · intro i
      by_cases hij : i = curIdx K m
      · simp [hij]
      · simp [hij]


theorem flatten_blocks (K : Nat) :
    ∀ (N : Nat) (l : List Nat), l.length ≤ N * K →
      ((List.range N).map (fun i => (l.drop (i * K)).take K)).flatten = l := by
  intro N
  induction N with
  | zero =>
      intro l hl
      have h0 : l = [] := List.eq_nil_of_length_eq_zero (by omega)
      simp [h0]
  | succ n ih =>
      intro l hl
      rw [List.range_succ_eq_map, List.map_cons, List.map_map]
      have hmap :
          (List.range n).map ((fun i => (l.drop (i * K)).take K) ∘ Nat.succ) =
            (List.range n).map (fun i => ((l.drop K).drop (i * K)).take K) := by
        apply List.map_congr_left
        intro i _
        simp only [Function.comp]
        rw [List.drop_drop]
        congr 2
        rw [Nat.succ_eq_add_one]
        ring
      rw [hmap]
      have hlen2 : (l.drop K).length ≤ n * K := by
        rw [List.length_drop]
        have : (n + 1) * K = n * K + K := by ring
        omega
      simp only [List.flatten_cons, Nat.zero_mul, List.drop_zero, ih (l.drop K) hlen2]
      exact List.take_append_drop K l


theorem take_min_length (xs : List Nat) (a : Nat) :
    xs.take (a ⊓ xs.length) = xs.take a := by
  rcases le_total a xs.length with h | h
  · rw [min_eq_left h]
  · rw [min_eq_right h, List.take_length, List.take_of_length_le h]

/-- The state reached by a full successful pipe run over `N` capacity-`K`
consumers: start, all writes, close. -/
theorem pipe_run (N K : Nat) (hN : 1 ≤ N) (full : List Nat)
    (hlen : full.length ≤ N * K) (kind : SupplyKind) :
    pipeConcat kind (List.replicate N K) false false full =
      (((midState kind N K full full.length).close).1,
       ((midState kind N K full full.length).close).2.1) := by
  have hrun : runWrites (midState kind N K full 0) full =
      (Except.ok (), midState kind N K full full.length) := by
    rcases Nat.eq_zero_or_pos K with hK0 | hK
    · have h0 : full = [] := by
        rw [hK0, Nat.mul_zero] at hlen
        exact List.eq_nil_of_length_eq_zero (by omega)
      subst h0
      simp [runWrites]
    · have h := (runWrites_mid kind N K full hN hK full.length 0 (by omega)
        (by omega) (by omega)).1 hlen
      rw [List.drop_zero] at h
      exact h
  have hstart := start_mid kind N K full hN
  simp only [pipeConcat, hstart, runPipe, hrun]

theorem c1_helper_buffers (N K : Nat) (full : List Nat)
    (hcap : full.length ≤ (curIdx K full.length + 1) * K) :
    ∀ i, ((midState SupplyKind.array N K full full.length).cons i).buffer =
      (full.drop (i * K)).take K := by
  intro i
  by_cases hij : i ≤ curIdx K full.length
  · simp only [midState, midCons, hij, if_pos]
    have hld : full.length - i * K = (full.drop (i * K)).length :=
      (List.length_drop _ _).symm
    rw [hld]
    exact take_min_length _ K
  · simp only [midState, midCons, hij, if_neg, not_false_iff, mkConsumer]
    have h1 : (curIdx K full.length + 1) * K ≤ i * K :=
      Nat.mul_le_mul_right K (by omega)
    have h2 : full.length ≤ i * K := by omega
    rw [List.drop_eq_nil_of_le h2]
    simp


/-- C1: piping at most N*K chunks through N capacity-K consumers
distributes them contiguously in order, K per consumer, the concatenation
of the consumers' data equals the input, and no consumer is left locked. -/
theorem c1_contiguous_roundtrip (N K : Nat) (hN : 1 ≤ N) (full : List Nat)
    (hlen : full.length ≤ N * K) :
    (pipeConcat SupplyKind.array (List.replicate N K) false false full).1 =
      Except.ok () ∧
    (∀ i, i < N →
      ((pipeConcat SupplyKind.array (List.replicate N K) false false
        full).2.cons i).buffer = (full.drop (i * K)).take K) ∧
    ((List.range N).map (fun i =>
      ((pipeConcat SupplyKind.array (List.replicate N K) false false
        full).2.cons i).buffer)).flatten = full ∧
    (∀ i, i < N →
      ((pipeConcat SupplyKind.array (List.replicate N K) false false
        full).2.cons i).locked = false) := by
  have hcap : full.length ≤ (curIdx K full.length + 1) * K := by
    rcases Nat.eq_zero_or_pos K with hK0 | hK
    · rw [hK0, Nat.mul_zero] at hlen
      omega
    · exact le_curIdx_succ_mul K full.length hK
  obtain ⟨hc1, hc2, hc3, hc4⟩ :=
    close_mid SupplyKind.array N K full full.length hcap
  have hp := pipe_run N K hN full hlen SupplyKind.array
  refine ⟨?_, ?_, ?_, ?_⟩
  · rw [hp]
    exact hc1
  · intro i hiN
    rw [hp]
    dsimp only
    rw [hc3 i, c1_helper_buffers N K full hcap i]
  · rw [hp]
    dsimp only
    have hm : (List.range N).map (fun i =>
        (((midState SupplyKind.array N K full full.length).close).2.1.cons
          i).buffer) =
        (List.range N).map (fun i => (full.drop (i * K)).take K) := by
      apply List.map_congr_left
      intro i _
      rw [hc3 i, c1_helper_buffers N K full hcap i]
    rw [hm]
    exact flatten_blocks K N full hlen
  · intro i hiN
    rw [hp]
    dsimp only
    exact hc2 i


/-- Witness for C1 at the repository test instance: 4 consumers of
capacity 2, input of 7 chunks. -/
theorem c1_contiguous_roundtrip_witness :
    ((1 : Nat) ≤ 4 ∧ ([1, 2, 3, 4, 5, 6, 7] : List Nat).length ≤ 4 * 2) ∧
    ((pipeConcat SupplyKind.array (List.replicate 4 2) false false
        [1, 2, 3, 4, 5, 6, 7]).1 = Except.ok () ∧
     (∀ i, i < 4 →
       ((pipeConcat SupplyKind.array (List.replicate 4 2) false false
         [1, 2, 3, 4, 5, 6, 7]).2.cons i).buffer =
         (([1, 2, 3, 4, 5, 6, 7] : List Nat).drop (i * 2)).take 2) ∧
     ((List.range 4).map (fun i =>
       ((pipeConcat SupplyKind.array (List.replicate 4 2) false false
         [1, 2, 3, 4, 5, 6, 7]).2.cons i).buffer)).flatten =
         [1, 2, 3, 4, 5, 6, 7] ∧
     (∀ i, i < 4 →
       ((pipeConcat SupplyKind.array (List.replicate 4 2) false false
         [1, 2, 3, 4, 5, 6, 7]).2.cons i).locked = false)) :=
  ⟨⟨by decide, by decide⟩,
   c1_contiguous_roundtrip 4 2 (by decide) [1, 2, 3, 4, 5, 6, 7] (by decide)⟩

/-- C2: writing more chunks than the combined capacity fails with the
supply-exhaustion RangeError, and the internal advance throws that range
error exactly when the cursor reports it is done. -/
theorem c2_supply_exhausted (N K : Nat) (hN : 1 ≤ N) (hK : 1 ≤ K)
    (full : List Nat) (hlen : N * K < full.length) :
    (pipeConcat SupplyKind.array (List.replicate N K) false false full).1 =
      Except.error exhaustedErr ∧
    (∀ (s : Sink) (reason : Option JsError), s.started = true →
      ((s.next reason).1 = Except.error exhaustedErr ↔
        (s.iterNextRaw reason).1 = none)) := by
  constructor
  · have hstart := start_mid SupplyKind.array N K full hN
    have h2 := (runWrites_mid SupplyKind.array N K full hN hK full.length 0
      (by omega) (by omega) (by omega)).2 hlen
    rw [List.drop_zero] at h2
    rcases hww : runWrites (midState SupplyKind.array N K full 0) full
      with ⟨r, s2⟩
    rw [hww] at h2
    dsimp only at h2
    subst h2
    simp only [pipeConcat, hstart, runPipe, hww]
  · intro s reason hst
    simp only [Sink.next, hst]
    rcases hres : s.iterNextRaw reason with ⟨o, s2, ev⟩
    cases o with
    | none => simp [exhaustedErr]
    | some j =>
        rcases hrel : s2.releaseCurrent with ⟨s3, ev2⟩
        by_cases hlk : (s3.cons j).locked
        · simp [hrel, hlk, exhaustedErr]
        · simp [hrel, hlk, exhaustedErr]


/-- Witness for C2 at the repository test instance: 3 consumers of
capacity 2, input of 10 chunks. -/
theorem c2_supply_exhausted_witness :
    ((1 : Nat) ≤ 3 ∧ (1 : Nat) ≤ 2 ∧ 3 * 2 < (List.range 10).length) ∧
    ((pipeConcat SupplyKind.array (List.replicate 3 2) false false
        (List.range 10)).1 = Except.error exhaustedErr ∧
     (∀ (s : Sink) (reason : Option JsError), s.started = true →
       ((s.next reason).1 = Except.error exhaustedErr ↔
         (s.iterNextRaw reason).1 = none))) :=
  ⟨⟨by decide, by decide, by decide⟩,
   c2_supply_exhausted 3 2 (by decide) (by decide) (List.range 10)
     (by decide)⟩

/-- C8: with a generator supply, the per-item cleanup runs once per advance
away from an item — the count equals the index of the active consumer
during the write phase — and once more for the still-active item when close
signals completion; concretely, 3 capacity-5 consumers and 10 chunks give a
final count of exactly 2. -/
theorem c8_cleanup_counts (N K : Nat) (hN : 1 ≤ N) (full : List Nat)
    (hlen : full.length ≤ N * K) :
    (runWrites (afterStart SupplyKind.gen (List.replicate N K))
        full).2.cleanups = curIdx K full.length ∧
    (pipeConcat SupplyKind.gen (List.replicate N K) false false full).1 =
      Except.ok () ∧
    (pipeConcat SupplyKind.gen (List.replicate N K) false false
        full).2.cleanups = curIdx K full.length + 1 ∧
    (pipeConcat SupplyKind.gen (List.replicate 3 5) false false
        (List.range 10)).2.cleanups = 2 := by
  have hstart := start_mid SupplyKind.gen N K full hN
  have hafter : afterStart SupplyKind.gen (List.replicate N K) =
      midState SupplyKind.gen N K full 0 := by
    simp only [afterStart, hstart]
  have hrun : runWrites (midState SupplyKind.gen N K full 0) full =
      (Except.ok (), midState SupplyKind.gen N K full full.length) := by
    rcases Nat.eq_zero_or_pos K with hK0 | hK
    · have h0 : full = [] := by
        rw [hK0, Nat.mul_zero] at hlen
        exact List.eq_nil_of_length_eq_zero (by omega)
      subst h0
      simp [runWrites]
    · have h := (runWrites_mid SupplyKind.gen N K full hN hK full.length 0
        (by omega) (by omega) (by omega)).1 hlen
      rw [List.drop_zero] at h
      exact h
  have hcap : full.length ≤ (curIdx K full.length + 1) * K := by
    rcases Nat.eq_zero_or_pos K with hK0 | hK
    · rw [hK0, Nat.mul_zero] at hlen
      omega
    · exact le_curIdx_succ_mul K full.length hK
  obtain ⟨hc1, hc2, hc3, hc4⟩ :=
    close_mid SupplyKind.gen N K full full.length hcap
  have hp := pipe_run N K hN full hlen SupplyKind.gen
  refine ⟨?_, ?_, ?_, ?_⟩
  · rw [hafter, hrun]
    simp [midState]
  · rw [hp]
    exact hc1
  · rw [hp]
    dsimp only
    rw [hc4]
    simp
  · decide


/-- Recognizes the cursor-advance call events. -/
def isAdvanceEv : Ev → Bool
  | Ev.iterNextCall _ => true
  | _ => false

theorem tryChunk_no_advance (s : Sink) (i c : Nat) :
    ((s.tryChunk i c).2.2).filter isAdvanceEv = [] := by
  unfold Sink.tryChunk Sink.writerReady Sink.writerWrite
  by_cases h1 : s.writerReleased
  · simp [h1, isAdvanceEv]
  · cases h2 : (s.cons i).errored
    · by_cases h3 : (s.cons i).closed
      · simp [h1, h2, h3, isAdvanceEv]
      · by_cases h4 : (s.cons i).capacity < (s.cons i).read + 1 <;>
          simp [h1, h2, h3, h4, isAdvanceEv]
    · simp [h1, h2, isAdvanceEv]

theorem tryChunk_frame (s : Sink) (i c : Nat) :
    (s.tryChunk i c).2.1.started = s.started ∧
    (s.tryChunk i c).2.1.writer = s.writer ∧
    (s.tryChunk i c).2.1.writerReleased = s.writerReleased := by
  unfold Sink.tryChunk Sink.writerReady Sink.writerWrite
  by_cases h1 : s.writerReleased
  · simp [h1]
  · cases h2 : (s.cons i).errored
    · by_cases h3 : (s.cons i).closed
      · simp [h1, h2, h3]
      · by_cases h4 : (s.cons i).capacity < (s.cons i).read + 1 <;>
          simp [h1, h2, h3, h4]
    · simp [h1, h2]

theorem writerReady_state (s : Sink) (i : Nat) :
    (s.writerReady i).2.1 = s ∧ (s.writerReady i).2.2 = [] := by
  unfold Sink.writerReady
  by_cases h1 : s.writerReleased
  · simp [h1]
  · cases h2 : (s.cons i).errored <;> simp [h1, h2]

theorem releaseCurrent_no_advance (s : Sink) :
    ((s.releaseCurrent).2).filter isAdvanceEv = [] := by
  unfold Sink.releaseCurrent
  cases hw : s.writer
  · simp
  · by_cases h : s.writerReleased <;> simp [h, isAdvanceEv]

theorem iterNextRaw_advance_events (s : Sink) (r : Option JsError) :
    ((s.iterNextRaw r).2.2).filter isAdvanceEv = [Ev.iterNextCall r] := by
  unfold Sink.iterNextRaw
  by_cases h1 : s.iterDone
  · simp [h1, isAdvanceEv]
  · by_cases h2 : s.kind = SupplyKind.gen ∧ 0 < s.idx
    · cases hg : s.caps[s.idx]? <;> simp [h1, h2, hg, isAdvanceEv]
    · cases hg : s.caps[s.idx]? <;> simp [h1, h2, hg, isAdvanceEv]

theorem next_advance_events (s : Sink) (r : Option JsError)
    (hst : s.started = true) :
    ((s.next r).2.2).filter isAdvanceEv = [Ev.iterNextCall r] := by
  have hraw2 := iterNextRaw_advance_events s r
  simp only [Sink.next, hst]
  rcases hraw : s.iterNextRaw r with ⟨o, s2, ev⟩
  rw [hraw] at hraw2
  dsimp only at hraw2
  cases o with
  | none => simpa using hraw2
  | some j =>
      have hrel2 := releaseCurrent_no_advance s2
      rcases hrel : s2.releaseCurrent with ⟨s3, ev2⟩
      rw [hrel] at hrel2
      dsimp only at hrel2
      by_cases hlk : (s3.cons j).locked <;>
        simp [hrel, hlk, List.filter_append, hraw2, hrel2, isAdvanceEv]

theorem next_ok_writer (s : Sink) (r : Option JsError) (j : Nat)
    (h : (s.next r).1 = Except.ok j) :
    (s.next r).2.1.writer = some j := by
  unfold Sink.next at h ⊢
  by_cases hst : s.started
  · simp only [hst] at h ⊢
    rcases hraw : s.iterNextRaw r with ⟨o, s2, ev⟩
    simp only [hraw] at h ⊢
    cases o with
    | none => simp at h
    | some j2 =>
        rcases hrel : s2.releaseCurrent with ⟨s3, ev2⟩
        by_cases hlk : (s3.cons j2).locked
        · simp [hrel, hlk] at h
        · simp [hrel, hlk] at h ⊢
          exact h
  · simp [hst] at h


theorem write_recover_spec (s : Sink) (c i : Nat) (e : JsError)
    (hst : s.started = true) (hw : s.writer = some i)
    (hfail : (s.tryChunk i c).1 = Except.error e) :
    ((s.write c).2.2).filter isAdvanceEv = [Ev.iterNextCall (some e)] ∧
    (∀ e2, (((s.tryChunk i c).2.1).next (some e)).1 = Except.error e2 →
      (s.write c).1 = Except.error e2) ∧
    (∀ j, (((s.tryChunk i c).2.1).next (some e)).1 = Except.ok j →
      (s.write c).2.1.writer = some j ∧
      (s.write c).1 =
        ((((s.tryChunk i c).2.1).next (some e)).2.1.tryChunk j c).1) := by
  have hTCadv := tryChunk_no_advance s i c
  have hTCfr := tryChunk_frame s i c
  rcases htc : s.tryChunk i c with ⟨r1, s2, ev1⟩
  rw [htc] at hfail hTCadv hTCfr
  dsimp only at hfail hTCadv hTCfr
  subst hfail
  have hst2 : s2.started = true := by
    rw [hTCfr.1]
    exact hst
  have hNXadv := next_advance_events s2 (some e) hst2
  rcases hnx : s2.next (some e) with ⟨r2, s3, ev2⟩
  rw [hnx] at hNXadv
  dsimp only at hNXadv
  simp only [Sink.write, hw, htc, hnx]
  cases r2 with
  | error e2 =>
      refine ⟨?_, ?_, ?_⟩
      · simp [List.filter_append, hTCadv, hNXadv]
      · intro e3 h3
        simp only [Except.error.injEq] at h3
        subst h3
        rfl
      · intro j h3
        simp at h3
  | ok j2 =>
      have hwr := next_ok_writer s2 (some e) j2 (by rw [hnx])
      rw [hnx] at hwr
      dsimp only at hwr
      have hTC3adv := tryChunk_no_advance s3 j2 c
      have hTC3fr := tryChunk_frame s3 j2 c
      refine ⟨?_, ?_, ?_⟩
      · simp [List.filter_append, hTCadv, hNXadv, hTC3adv]
      · intro e3 h3
        simp at h3
      · intro j h3
        simp only [Except.ok.injEq] at h3
        subst h3
        dsimp only
        exact ⟨by rw [hTC3fr.2.1, hwr], rfl⟩

/-- C3: when submitting a chunk to the current handle fails, `write`
advances the cursor exactly once, passing the failure as the reason; if the
advance or the single retry fails, that failure propagates unwrapped, and a
successful advance installs the new handle as current. -/
theorem c3_advance_retry_once (s : Sink) (c i : Nat) (e : JsError)
    (hst : s.started = true) (hw : s.writer = some i)
    (hfail : (s.tryChunk i c).1 = Except.error e) :
    ((s.write c).2.2).filter isAdvanceEv = [Ev.iterNextCall (some e)] ∧
    (∀ e2, (((s.tryChunk i c).2.1).next (some e)).1 = Except.error e2 →
      (s.write c).1 = Except.error e2) ∧
    (∀ j, (((s.tryChunk i c).2.1).next (some e)).1 = Except.ok j →
      (s.write c).2.1.writer = some j ∧
      (s.write c).1 =
        ((((s.tryChunk i c).2.1).next (some e)).2.1.tryChunk j c).1) :=
  write_recover_spec s c i e hst hw hfail


/-- Decidable equality of results, for evaluating witnesses. -/
instance {e a : Type} [DecidableEq e] [DecidableEq a] :
    DecidableEq (Except e a) := fun x y =>
  match x, y with
  | Except.error v, Except.error w =>
      if h : v = w then Decidable.isTrue (by rw [h])
      else Decidable.isFalse (by simp [h])
  | Except.error _, Except.ok _ => Decidable.isFalse (by simp)
  | Except.ok _, Except.error _ => Decidable.isFalse (by simp)
  | Except.ok v, Except.ok w =>
      if h : v = w then Decidable.isTrue (by rw [h])
      else Decidable.isFalse (by simp [h])

/-- A concrete mid-run state: two capacity-2 consumers, first one full. -/
def c3sink : Sink := (runWrites (afterStart SupplyKind.array [2, 2]) [9, 9]).2

/-- Witness for C3: the full first consumer rejects chunk 7, the sink
advances once with that RangeError as reason and resubmits to consumer 1. -/
theorem c3_advance_retry_once_witness :
    (c3sink.started = true ∧ c3sink.writer = some 0 ∧
     (c3sink.tryChunk 0 7).1 = Except.error (limitErr 2)) ∧
    (((c3sink.write 7).2.2).filter isAdvanceEv =
        [Ev.iterNextCall (some (limitErr 2))] ∧
     (∀ e2, (((c3sink.tryChunk 0 7).2.1).next (some (limitErr 2))).1 =
         Except.error e2 → (c3sink.write 7).1 = Except.error e2) ∧
     (∀ j, (((c3sink.tryChunk 0 7).2.1).next (some (limitErr 2))).1 =
         Except.ok j →
       (c3sink.write 7).2.1.writer = some j ∧
       (c3sink.write 7).1 =
         ((((c3sink.tryChunk 0 7).2.1).next
           (some (limitErr 2))).2.1.tryChunk j 7).1)) :=
  ⟨⟨by decide, by decide, by decide⟩,
   c3_advance_retry_once c3sink 7 0 (limitErr 2) (by decide) (by decide)
     (by decide)⟩

/-- C10: a rejection of the handle readiness wait triggers the same
advance-and-retry recovery as a rejected chunk submission, with the
readiness rejection passed into the cursor as the advance reason. -/
theorem c10_ready_failure_recovery (s : Sink) (c i : Nat) (e : JsError)
    (hst : s.started = true) (hw : s.writer = some i)
    (hready : (s.writerReady i).1 = Except.error e) :
    (s.tryChunk i c).1 = Except.error e ∧
    (s.tryChunk i c).2.1 = s ∧
    ((s.write c).2.2).filter isAdvanceEv = [Ev.iterNextCall (some e)] ∧
    (∀ j, (s.next (some e)).1 = Except.ok j →
      (s.write c).2.1.writer = some j ∧
      (s.write c).1 = (((s.next (some e)).2.1).tryChunk j c).1) := by
  have hrs := writerReady_state s i
  have h1 : (s.tryChunk i c).1 = Except.error e ∧
      (s.tryChunk i c).2.1 = s := by
    unfold Sink.tryChunk
    rcases hr : s.writerReady i with ⟨rr, sr, evr⟩
    rw [hr] at hready hrs
    dsimp only at hready hrs
    subst hready
    exact ⟨rfl, hrs.1⟩
  obtain ⟨hf, hs⟩ := h1
  have hmain := write_recover_spec s c i e hst hw hf
  refine ⟨hf, hs, hmain.1, ?_⟩
  intro j hj
  have h2 := hmain.2.2 j (by rw [hs]; exact hj)
  rw [hs] at h2
  exact h2

/-- A sink whose active consumer stream has errored while idle, so the
readiness wait rejects. -/
def c10sink : Sink :=
  let s := afterStart SupplyKind.array [2, 2]
  let con := s.cons 0
  { s with
      cons := upd s.cons 0 ({ con with errored := some (JsError.typeError "boom") }) }

/-- Witness for C10 at a concrete errored-while-ready state. -/
theorem c10_ready_failure_recovery_witness :
    (c10sink.started = true ∧ c10sink.writer = some 0 ∧
     (c10sink.writerReady 0).1 =
       Except.error (JsError.typeError "boom")) ∧
    ((c10sink.tryChunk 0 4).1 = Except.error (JsError.typeError "boom") ∧
     (c10sink.tryChunk 0 4).2.1 = c10sink ∧
     ((c10sink.write 4).2.2).filter isAdvanceEv =
       [Ev.iterNextCall (some (JsError.typeError "boom"))] ∧
     (∀ j, (c10sink.next (some (JsError.typeError "boom"))).1 =
         Except.ok j →
       (c10sink.write 4).2.1.writer = some j ∧
       (c10sink.write 4).1 =
         (((c10sink.next
           (some (JsError.typeError "boom"))).2.1).tryChunk j 4).1)) :=
  ⟨⟨by decide, by decide, by decide⟩,
   c10_ready_failure_recovery c10sink 4 0 (JsError.typeError "boom")
     (by decide) (by decide) (by decide)⟩


/-- Witness for C8 at the repository test instance: 3 capacity-5
consumers from a generator supply and 10 input chunks. -/
theorem c8_cleanup_counts_witness :
    ((1 : Nat) ≤ 3 ∧ (List.range 10).length ≤ 3 * 5) ∧
    ((runWrites (afterStart SupplyKind.gen (List.replicate 3 5))
        (List.range 10)).2.cleanups = curIdx 5 (List.range 10).length ∧
     (pipeConcat SupplyKind.gen (List.replicate 3 5) false false
        (List.range 10)).1 = Except.ok () ∧
     (pipeConcat SupplyKind.gen (List.replicate 3 5) false false
        (List.range 10)).2.cleanups = curIdx 5 (List.range 10).length + 1 ∧
     (pipeConcat SupplyKind.gen (List.replicate 3 5) false false
        (List.range 10)).2.cleanups = 2) :=
  ⟨⟨by decide, by decide⟩,
   c8_cleanup_counts 3 5 (by decide) (List.range 10) (by decide)⟩

/-- At most one consumer is exclusively held: any locked consumer is the
one the current unreleased handle points at. -/
def singleHolder (s : Sink) : Prop :=
  ∀ i, i < s.caps.length → (s.cons i).locked = true →
    s.writer = some i ∧ s.writerReleased = false

theorem iterReturn_frame (s : Sink) :
    (s.iterReturn).1.cons = s.cons ∧ (s.iterReturn).1.writer = s.writer ∧
    (s.iterReturn).1.writerReleased = s.writerReleased ∧
    (s.iterReturn).1.caps = s.caps ∧
    (s.iterReturn).1.preventClose = s.preventClose := by
  rcases s with ⟨kind, caps, pc, pa, st, idx, done, cl, cons, w, wr⟩
  cases kind
  · simp [Sink.iterReturn]
  · simp only [Sink.iterReturn]
    split <;> simp

theorem iterThrow_frame (s : Sink) (r : JsError) :
    (s.iterThrow r).2.1.cons = s.cons ∧
    (s.iterThrow r).2.1.writer = s.writer ∧
    (s.iterThrow r).2.1.writerReleased = s.writerReleased ∧
    (s.iterThrow r).2.1.caps = s.caps ∧
    (s.iterThrow r).2.1.preventAbort = s.preventAbort := by
  rcases s with ⟨kind, caps, pc, pa, st, idx, done, cl, cons, w, wr⟩
  cases kind
  · simp [Sink.iterThrow]
  · simp only [Sink.iterThrow]
    split <;> simp

theorem writerClose_frame (s : Sink) :
    (∀ i, ((s.writerClose).2.1.cons i).locked = (s.cons i).locked) ∧
    (s.writerClose).2.1.writer = s.writer ∧
    (s.writerClose).2.1.writerReleased = s.writerReleased ∧
    (s.writerClose).2.1.caps = s.caps := by
  unfold Sink.writerClose
  cases hw : s.writer with
  | none => simp [hw]
  | some i =>
      by_cases h1 : s.writerReleased
      · simp [hw, h1]
      · cases h2 : (s.cons i).errored with
        | some e => simp [hw, h1, h2]
        | none =>
            by_cases h3 : (s.cons i).closed
            · simp [hw, h1, h2, h3]
            · constructor
              · intro i2
                by_cases hi : i2 = i <;> simp [hw, h1, h2, h3, upd, hi]
              · refine ⟨?_, ?_, ?_⟩ <;> simp [hw, h1, h2, h3, upd]

theorem writerAbort_frame (s : Sink) (r : JsError) :
    (∀ i, ((s.writerAbort r).2.1.cons i).locked = (s.cons i).locked) ∧
    (s.writerAbort r).2.1.writer = s.writer ∧
    (s.writerAbort r).2.1.writerReleased = s.writerReleased ∧
    (s.writerAbort r).2.1.caps = s.caps := by
  unfold Sink.writerAbort
  cases hw : s.writer with
  | none => simp [hw]
  | some i =>
      by_cases h1 : s.writerReleased
      · simp [hw, h1]
      · by_cases h2 : (s.cons i).closed = true ∨ ((s.cons i).errored).isSome
        · simp [hw, h1, h2]
        · constructor
          · intro i2
            by_cases hi : i2 = i <;> simp [hw, h1, h2, upd, hi]
          · refine ⟨?_, ?_, ?_⟩ <;> simp [hw, h1, h2, upd]


theorem singleHolder_of_frame (s t : Sink)
    (hc : ∀ i, (t.cons i).locked = (s.cons i).locked)
    (hw : t.writer = s.writer) (hr : t.writerReleased = s.writerReleased)
    (hcaps : t.caps = s.caps) (hsh : singleHolder s) : singleHolder t := by
  intro i hi hl
  rw [hcaps] at hi
  rw [hc] at hl
  obtain ⟨h1, h2⟩ := hsh i hi hl
  exact ⟨by rw [hw, h1], by rw [hr, h2]⟩

theorem releaseCurrent_all_unlocked (s : Sink) (hsh : singleHolder s) :
    ∀ i, i < s.caps.length → (((s.releaseCurrent).1).cons i).locked =
      false := by
  intro i hi
  unfold Sink.releaseCurrent
  cases hw : s.writer with
  | none =>
      cases hl : (s.cons i).locked
      · rfl
      · have := (hsh i hi hl).1
        rw [hw] at this
        simp at this
  | some k =>
      by_cases h1 : s.writerReleased
      · simp only [h1, if_true]
        cases hl : (s.cons i).locked
        · rfl
        · have := (hsh i hi hl).2
          rw [h1] at this
          simp at this
      · simp only [h1, if_false, Bool.false_eq_true]
        by_cases hik : i = k
        · simp [upd, hik]
        · simp only [upd, hik, if_neg, ite_false]
          cases hl : (s.cons i).locked
          · simp [hik]
          · have := (hsh i hi hl).1
            rw [hw] at this
            simp only [Option.some.injEq] at this
            exact absurd this.symm hik

theorem releaseCurrent_frame (s : Sink) :
    (s.releaseCurrent).1.writer = s.writer ∧
    (s.releaseCurrent).1.caps = s.caps := by
  unfold Sink.releaseCurrent
  cases hw : s.writer with
  | none => simp [hw]
  | some k => by_cases h1 : s.writerReleased <;> simp [hw, h1]


theorem iterNextRaw_none_state (s : Sink) (r : Option JsError)
    (h : (s.iterNextRaw r).1 = none) :
    (s.iterNextRaw r).2.1.cons = s.cons ∧
    (s.iterNextRaw r).2.1.writer = s.writer ∧
    (s.iterNextRaw r).2.1.writerReleased = s.writerReleased ∧
    (s.iterNextRaw r).2.1.caps = s.caps := by
  unfold Sink.iterNextRaw at h ⊢
  by_cases h1 : s.iterDone
  · simp [h1]
  · by_cases h2 : s.kind = SupplyKind.gen ∧ 0 < s.idx <;>
      cases hg : s.caps[s.idx]? <;>
      simp [h1, h2, hg] at h ⊢

theorem iterNextRaw_some_state (s : Sink) (r : Option JsError) (j : Nat)
    (h : (s.iterNextRaw r).1 = some j) :
    j = s.idx ∧
    (∀ i, i ≠ s.idx → (s.iterNextRaw r).2.1.cons i = s.cons i) ∧
    ((s.iterNextRaw r).2.1.cons s.idx).locked = false ∧
    (s.iterNextRaw r).2.1.writer = s.writer ∧
    (s.iterNextRaw r).2.1.writerReleased = s.writerReleased ∧
    (s.iterNextRaw r).2.1.caps = s.caps := by
  unfold Sink.iterNextRaw at h ⊢
  by_cases h1 : s.iterDone
  · simp [h1] at h
  · by_cases h2 : s.kind = SupplyKind.gen ∧ 0 < s.idx <;>
      cases hg : s.caps[s.idx]? <;>
      simp [h1, h2, hg, upd, mkConsumer] at h ⊢ <;>
      (refine ⟨h.symm, ?_⟩
       intro i hi
       simp [hi])

theorem releaseCurrent_locked_le (s : Sink) :
    ∀ i, ((s.releaseCurrent).1.cons i).locked = true →
      (s.cons i).locked = true ∧
      ¬ (s.writer = some i ∧ s.writerReleased = false) := by
  intro i
  unfold Sink.releaseCurrent
  cases hw : s.writer with
  | none =>
      intro hl
      exact ⟨hl, by simp [hw]⟩
  | some k =>
      by_cases h1 : s.writerReleased
      · dsimp only
        simp only [h1, if_true]
        intro hl
        exact ⟨hl, by simp [h1]⟩
      · simp only [h1, if_false, Bool.false_eq_true]
        by_cases hik : i = k
        · simp [upd, hik]
        · simp only [upd, hik, ite_false]
          intro hl
          refine ⟨hl, ?_⟩
          intro hcon
          obtain ⟨hwi, -⟩ := hcon
          exact hik (by simpa using hwi.symm)


theorem next_err_locks (s : Sink) (r : Option JsError)
    (herr : (s.next r).1 = Except.error exhaustedErr) :
    ∀ i, ((s.next r).2.1.cons i).locked = (s.cons i).locked := by
  intro i
  unfold Sink.next at herr ⊢
  by_cases hst : s.started
  · simp only [hst, not_true, Bool.not_eq_true, if_false] at herr ⊢
    rcases hraw : s.iterNextRaw r with ⟨o, s2, ev⟩
    simp only [hraw] at herr ⊢
    cases o with
    | none =>
        have hs := iterNextRaw_none_state s r (by rw [hraw])
        rw [hraw] at hs
        dsimp only at hs ⊢
        rw [hs.1]
    | some j2 =>
        have hs := iterNextRaw_some_state s r j2 (by rw [hraw])
        rcases hrel : s2.releaseCurrent with ⟨s3, ev2⟩
        by_cases hlk : (s3.cons j2).locked
        · simp [hrel, hlk, exhaustedErr] at herr
        · simp [hrel, hlk, exhaustedErr] at herr
  · simp [hst, exhaustedErr] at herr

theorem next_ok_locks (s : Sink) (r : Option JsError) (j : Nat)
    (hsh : singleHolder s) (hok : (s.next r).1 = Except.ok j) :
    (s.next r).2.1.writer = some j ∧
    ((s.next r).2.1.cons j).locked = true ∧
    (∀ i, i < s.caps.length → i ≠ j →
      ((s.next r).2.1.cons i).locked = false) := by
  unfold Sink.next at hok ⊢
  by_cases hst : s.started
  · simp only [hst, not_true, Bool.not_eq_true, if_false] at hok ⊢
    rcases hraw : s.iterNextRaw r with ⟨o, s2, ev⟩
    simp only [hraw] at hok ⊢
    cases o with
    | none => simp at hok
    | some j2 =>
        have hs := iterNextRaw_some_state s r j2 (by rw [hraw])
        rw [hraw] at hs
        dsimp only at hs
        obtain ⟨hj2, hother, hfresh, hw2, hr2, hcaps2⟩ := hs
        rcases hrel : s2.releaseCurrent with ⟨s3, ev2⟩
        have hrlock := releaseCurrent_locked_le s2
        rw [hrel] at hrlock
        dsimp only at hrlock
        by_cases hlk : (s3.cons j2).locked
        · exfalso
          have h2l := (hrlock j2 hlk).1
          rw [hj2] at h2l
          rw [hfresh] at h2l
          exact Bool.false_ne_true h2l
        · simp only [hrel, hlk, Bool.false_eq_true, if_false] at hok ⊢
          simp only [Except.ok.injEq] at hok
          subst hok
          refine ⟨rfl, by simp [upd], ?_⟩
          intro i hi hij
          simp only [upd, hij, ite_false]
          cases hl3 : (s3.cons i).locked
          · rfl
          · exfalso
            obtain ⟨h2l, hnot⟩ := hrlock i hl3
            have hsl : (s.cons i).locked = true := by
              rw [← hother i (by rw [← hj2]; exact hij)]
              exact h2l
            obtain ⟨hwi, hri⟩ := hsh i hi hsl
            exact hnot ⟨by rw [hw2, hwi], by rw [hr2, hri]⟩
  · simp [hst] at hok

theorem next_preserves_singleHolder (s : Sink) (r : Option JsError)
    (hsh : singleHolder s) : singleHolder ((s.next r).2.1) := by
  unfold Sink.next
  by_cases hst : s.started
  · simp only [hst, not_true, Bool.not_eq_true, if_false]
    rcases hraw : s.iterNextRaw r with ⟨o, s2, ev⟩
    cases o with
    | none =>
        have hs := iterNextRaw_none_state s r (by rw [hraw])
        rw [hraw] at hs
        dsimp only at hs ⊢
        exact singleHolder_of_frame s s2 (fun i => by rw [hs.1]) hs.2.1
          hs.2.2.1 hs.2.2.2 hsh
    | some j2 =>
        have hs := iterNextRaw_some_state s r j2 (by rw [hraw])
        rw [hraw] at hs
        dsimp only at hs
        obtain ⟨hj2, hother, hfresh, hw2, hr2, hcaps2⟩ := hs
        rcases hrel : s2.releaseCurrent with ⟨s3, ev2⟩
        have hrlock := releaseCurrent_locked_le s2
        rw [hrel] at hrlock
        dsimp only at hrlock
        have hfr := releaseCurrent_frame s2
        rw [hrel] at hfr
        dsimp only at hfr
        have hs3lock : ∀ i, i < s3.caps.length → i ≠ s.idx →
            (s3.cons i).locked = false := by
          intro i hi hij
          cases hl3 : (s3.cons i).locked
          · rfl
          · exfalso
            obtain ⟨h2l, hnot⟩ := hrlock i hl3
            have hsl : (s.cons i).locked = true := by
              rw [← hother i hij]
              exact h2l
            have hi2 : i < s.caps.length := by
              rw [hfr.2, hcaps2] at hi
              exact hi
            obtain ⟨hwi, hri⟩ := hsh i hi2 hsl
            exact hnot ⟨by rw [hw2, hwi], by rw [hr2, hri]⟩
        by_cases hlk : (s3.cons j2).locked
        · simp only [hrel, hlk, if_true]
          intro i hi hl
          exfalso
          have h2l := (hrlock i hl).1
          by_cases hij : i = s.idx
          · rw [hij, hfresh] at h2l
            exact Bool.false_ne_true h2l
          · have hfalse := hs3lock i hi hij
            rw [hl] at hfalse
            simp at hfalse
        · simp only [hrel, hlk, Bool.false_eq_true, if_false]
          intro i hi hl
          dsimp only at hl hi ⊢
          by_cases hij : i = j2
          · subst hij
            exact ⟨rfl, rfl⟩
          · exfalso
            simp only [upd, hij, ite_false] at hl
            have hfalse : (s3.cons i).locked = false := by
              apply hs3lock i hi
              rw [← hj2]
              exact hij
            rw [hl] at hfalse
            simp at hfalse
  · simp only [hst, Bool.not_eq_true, Bool.false_eq_true, not_false_iff,
      if_true]
    exact hsh


theorem close_ok_unlocks (s : Sink) (hsh : singleHolder s)
    (hok : (s.close).1 = Except.ok ()) :
    ∀ i, i < s.caps.length → ((s.close).2.1.cons i).locked = false := by
  intro i hi
  have hIR := iterReturn_frame s
  unfold Sink.close at hok ⊢
  rcases hir : s.iterReturn with ⟨s1, ev1⟩
  simp only [hir] at hok hIR ⊢
  obtain ⟨hc1, hw1, hr1, hcaps1, hpc1⟩ := hIR
  have hsh1 : singleHolder s1 :=
    singleHolder_of_frame s s1 (fun k => by rw [hc1]) hw1 hr1 hcaps1 hsh
  by_cases hpc : s1.preventClose
  · simp only [hpc, if_true] at hok ⊢
    rcases hrel : s1.releaseCurrent with ⟨s2, ev2⟩
    simp only [hrel] at hok ⊢
    have h := releaseCurrent_all_unlocked s1 hsh1 i
      (by rw [hcaps1]; exact hi)
    rw [hrel] at h
    exact h
  · simp only [hpc, Bool.false_eq_true, if_false] at hok ⊢
    have hWC := writerClose_frame s1
    rcases hwc : s1.writerClose with ⟨rc, s2, ev2⟩
    simp only [hwc] at hok hWC ⊢
    obtain ⟨hc2, hw2, hr2, hcaps2⟩ := hWC
    cases rc with
    | error e => simp at hok
    | ok u =>
        have hsh2 : singleHolder s2 :=
          singleHolder_of_frame s1 s2 hc2 hw2 hr2 hcaps2 hsh1
        rcases hrel : s2.releaseCurrent with ⟨s3, ev3⟩
        simp only [hrel] at hok ⊢
        have h := releaseCurrent_all_unlocked s2 hsh2 i
          (by rw [hcaps2, hcaps1]; exact hi)
        rw [hrel] at h
        exact h

theorem close_err_locks (s : Sink) (e : JsError)
    (herr : (s.close).1 = Except.error e) :
    ∀ i, ((s.close).2.1.cons i).locked = (s.cons i).locked := by
  intro i
  have hIR := iterReturn_frame s
  unfold Sink.close at herr ⊢
  rcases hir : s.iterReturn with ⟨s1, ev1⟩
  simp only [hir] at herr hIR ⊢
  obtain ⟨hc1, hw1, hr1, hcaps1, hpc1⟩ := hIR
  by_cases hpc : s1.preventClose
  · simp only [hpc, if_true] at herr ⊢
    rcases hrel : s1.releaseCurrent with ⟨s2, ev2⟩
    simp [hrel] at herr
  · simp only [hpc, Bool.false_eq_true, if_false] at herr ⊢
    have hWC := writerClose_frame s1
    rcases hwc : s1.writerClose with ⟨rc, s2, ev2⟩
    simp only [hwc] at herr hWC ⊢
    obtain ⟨hc2, hw2, hr2, hcaps2⟩ := hWC
    cases rc with
    | error e2 =>
        dsimp only
        rw [hc2 i, hc1]
    | ok u =>
        rcases hrel : s2.releaseCurrent with ⟨s3, ev3⟩
        simp [hrel] at herr

theorem abort_ok_unlocks (s : Sink) (r : JsError) (hsh : singleHolder s)
    (hok : (s.abort r).1 = Except.ok ()) :
    ∀ i, i < s.caps.length → ((s.abort r).2.1.cons i).locked = false := by
  intro i hi
  have hIT := iterThrow_frame s r
  unfold Sink.abort at hok ⊢
  rcases hit : s.iterThrow r with ⟨b, s1, ev1⟩
  simp only [hit] at hok hIT ⊢
  obtain ⟨hc1, hw1, hr1, hcaps1, hpa1⟩ := hIT
  have hsh1 : singleHolder s1 :=
    singleHolder_of_frame s s1 (fun k => by rw [hc1]) hw1 hr1 hcaps1 hsh
  by_cases hpa : s1.preventAbort
  · simp only [hpa, if_true] at hok ⊢
    rcases hrel : s1.releaseCurrent with ⟨s2, ev2⟩
    simp only [hrel] at hok ⊢
    have h := releaseCurrent_all_unlocked s1 hsh1 i
      (by rw [hcaps1]; exact hi)
    rw [hrel] at h
    exact h
  · simp only [hpa, Bool.false_eq_true, if_false] at hok ⊢
    have hWA := writerAbort_frame s1 r
    rcases hwa : s1.writerAbort r with ⟨rc, s2, ev2⟩
    simp only [hwa] at hok hWA ⊢
    obtain ⟨hc2, hw2, hr2, hcaps2⟩ := hWA
    cases rc with
    | error e => simp at hok
    | ok u =>
        have hsh2 : singleHolder s2 :=
          singleHolder_of_frame s1 s2 hc2 hw2 hr2 hcaps2 hsh1
        rcases hrel : s2.releaseCurrent with ⟨s3, ev3⟩
        simp only [hrel] at hok ⊢
        have h := releaseCurrent_all_unlocked s2 hsh2 i
          (by rw [hcaps2, hcaps1]; exact hi)
        rw [hrel] at h
        exact h

theorem abort_err_locks (s : Sink) (r : JsError) (e : JsError)
    (herr : (s.abort r).1 = Except.error e) :
    ∀ i, ((s.abort r).2.1.cons i).locked = (s.cons i).locked := by
  intro i
  have hIT := iterThrow_frame s r
  unfold Sink.abort at herr ⊢
  rcases hit : s.iterThrow r with ⟨b, s1, ev1⟩
  simp only [hit] at herr hIT ⊢
  obtain ⟨hc1, hw1, hr1, hcaps1, hpa1⟩ := hIT
  by_cases hpa : s1.preventAbort
  · simp only [hpa, if_true] at herr ⊢
    rcases hrel : s1.releaseCurrent with ⟨s2, ev2⟩
    simp [hrel] at herr
  · simp only [hpa, Bool.false_eq_true, if_false] at herr ⊢
    have hWA := writerAbort_frame s1 r
    rcases hwa : s1.writerAbort r with ⟨rc, s2, ev2⟩
    simp only [hwa] at herr hWA ⊢
    obtain ⟨hc2, hw2, hr2, hcaps2⟩ := hWA
    cases rc with
    | error e2 =>
        dsimp only
        rw [hc2 i, hc1]
    | ok u =>
        rcases hrel : s2.releaseCurrent with ⟨s3, ev3⟩
        simp [hrel] at herr


/-- C4 counterexample: when the supply is exhausted, the internal advance
throws the range error but does not release the held handle — the active
consumer stays locked, contradicting release-on-every-exit-path. -/
theorem c4_counterexample :
    ((afterStart SupplyKind.array [1]).next none).1 =
      Except.error exhaustedErr ∧
    ((afterStart SupplyKind.array [1]).cons 0).locked = true ∧
    (((afterStart SupplyKind.array [1]).next none).2.1.cons 0).locked =
      true := by decide

/-- C4 (amended): at most one exclusive handle is live at any time and the
old handle is released before a new one is acquired; exclusivity is
released on the successful exit paths of advance, close and abort, while
the failing exit paths (exhausted supply in advance, rejected forwarded
close/abort) leave the lock state unchanged, so the current handle stays
held there. -/
theorem c4_single_live_handle (s : Sink) (hsh : singleHolder s) :
    (∀ r, singleHolder ((s.next r).2.1)) ∧
    (∀ r j, (s.next r).1 = Except.ok j →
      (s.next r).2.1.writer = some j ∧
      ((s.next r).2.1.cons j).locked = true ∧
      (∀ i, i < s.caps.length → i ≠ j →
        ((s.next r).2.1.cons i).locked = false)) ∧
    (∀ r, (s.next r).1 = Except.error exhaustedErr →
      ∀ i, ((s.next r).2.1.cons i).locked = (s.cons i).locked) ∧
    ((s.close).1 = Except.ok () →
      ∀ i, i < s.caps.length → ((s.close).2.1.cons i).locked = false) ∧
    (∀ e, (s.close).1 = Except.error e →
      ∀ i, ((s.close).2.1.cons i).locked = (s.cons i).locked) ∧
    (∀ r, (s.abort r).1 = Except.ok () →
      ∀ i, i < s.caps.length → ((s.abort r).2.1.cons i).locked = false) ∧
    (∀ r e, (s.abort r).1 = Except.error e →
      ∀ i, ((s.abort r).2.1.cons i).locked = (s.cons i).locked) :=
  ⟨fun r => next_preserves_singleHolder s r hsh,
   fun r j h => next_ok_locks s r j hsh h,
   fun r h => next_err_locks s r h,
   fun h => close_ok_unlocks s hsh h,
   fun e h => close_err_locks s e h,
   fun r h => abort_ok_unlocks s r hsh h,
   fun r e h => abort_err_locks s r e h⟩

instance (s : Sink) : Decidable (singleHolder s) :=
  inferInstanceAs (Decidable (∀ i, i < s.caps.length →
    (s.cons i).locked = true →
    s.writer = some i ∧ s.writerReleased = false))

/-- Witness for C4 at the started two-consumer state. -/
theorem c4_single_live_handle_witness :
    singleHolder (afterStart SupplyKind.array [1, 1]) ∧
    ((∀ r, singleHolder
        (((afterStart SupplyKind.array [1, 1]).next r).2.1)) ∧
     (∀ r j, ((afterStart SupplyKind.array [1, 1]).next r).1 =
         Except.ok j →
       ((afterStart SupplyKind.array [1, 1]).next r).2.1.writer = some j ∧
       ((((afterStart SupplyKind.array [1, 1]).next r).2.1.cons
         j)).locked = true ∧
       (∀ i, i < (afterStart SupplyKind.array [1, 1]).caps.length → i ≠ j →
         ((((afterStart SupplyKind.array [1, 1]).next r).2.1.cons
           i)).locked = false)) ∧
     (∀ r, ((afterStart SupplyKind.array [1, 1]).next r).1 =
         Except.error exhaustedErr →
       ∀ i, ((((afterStart SupplyKind.array [1, 1]).next r).2.1.cons
           i)).locked =
         (((afterStart SupplyKind.array [1, 1]).cons i)).locked) ∧
     (((afterStart SupplyKind.array [1, 1]).close).1 = Except.ok () →
       ∀ i, i < (afterStart SupplyKind.array [1, 1]).caps.length →
         ((((afterStart SupplyKind.array [1, 1]).close).2.1.cons
           i)).locked = false) ∧
     (∀ e, ((afterStart SupplyKind.array [1, 1]).close).1 =
         Except.error e →
       ∀ i, ((((afterStart SupplyKind.array [1, 1]).close).2.1.cons
           i)).locked =
         (((afterStart SupplyKind.array [1, 1]).cons i)).locked) ∧
     (∀ r, ((afterStart SupplyKind.array [1, 1]).abort r).1 =
         Except.ok () →
       ∀ i, i < (afterStart SupplyKind.array [1, 1]).caps.length →
         ((((afterStart SupplyKind.array [1, 1]).abort r).2.1.cons
           i)).locked = false) ∧
     (∀ r e, ((afterStart SupplyKind.array [1, 1]).abort r).1 =
         Except.error e →
       ∀ i, ((((afterStart SupplyKind.array [1, 1]).abort r).2.1.cons
           i)).locked =
         (((afterStart SupplyKind.array [1, 1]).cons i)).locked)) :=
  ⟨by decide, c4_single_live_handle (afterStart SupplyKind.array [1, 1])
    (by decide)⟩


/-- Recognizes events that finalize a consumer (forwarded close/abort). -/
def isFinalizeEv : Ev → Bool
  | Ev.targetClose _ => true
  | Ev.targetAbort _ _ => true
  | _ => false

/-- Index of the first occurrence of an event in a list. -/
def evIdx (l : List Ev) (e : Ev) : Nat := l.findIdx (fun x => x == e)

/-- A concrete mid-run generator-supply state: two capacity-1 consumers,
one chunk written, cursor on the first consumer. -/
def c5sink : Sink := (runWrites (afterStart SupplyKind.gen [1, 1]) [3]).2

/-- C5 counterexample: in `next`, the cursor is resumed (running the
departed item's cleanup) before the old handle is released, so the release
neither precedes the pull nor the per-item cleanup. -/
theorem c5_counterexample :
    (c5sink.next (some JsError.undef)).2.2 =
      [Ev.iterNextCall (some JsError.undef), Ev.cleanupRun 0,
       Ev.release 0, Ev.acquire 1] ∧
    ¬ (evIdx ((c5sink.next (some JsError.undef)).2.2) (Ev.release 0) <
       evIdx ((c5sink.next (some JsError.undef)).2.2) (Ev.cleanupRun 0)) ∧
    ¬ (evIdx ((c5sink.next (some JsError.undef)).2.2) (Ev.release 0) <
       evIdx ((c5sink.next (some JsError.undef)).2.2)
         (Ev.iterNextCall (some JsError.undef))) := by decide


/-- C5 (amended): advance first resumes the supply cursor — running the
departed item's generator cleanup at that point — and only then releases
the old handle, just before acquiring the new one; it never closes or
aborts any consumer. -/
theorem c5_pull_then_release (s : Sink) (r : Option JsError)
    (hst : s.started = true) (hok : ∃ j, (s.next r).1 = Except.ok j) :
    (s.next r).2.2 =
      [Ev.iterNextCall r] ++
        (if s.kind = SupplyKind.gen ∧ 0 < s.idx then
          [Ev.cleanupRun (s.idx - 1)] else []) ++
        (match s.writer with
         | some i => if s.writerReleased then [] else [Ev.release i]
         | none => []) ++
        [Ev.acquire s.idx] ∧
    ((s.next r).2.2).filter isFinalizeEv = [] := by
  obtain ⟨j, hok⟩ := hok
  unfold Sink.next Sink.iterNextRaw Sink.releaseCurrent at hok ⊢
  simp only [hst, not_true, Bool.not_eq_true, if_false] at hok ⊢
  by_cases hdone : s.iterDone
  · simp [hdone] at hok
  · by_cases h2 : s.kind = SupplyKind.gen ∧ 0 < s.idx
    · cases hg : s.caps[s.idx]? with
      | none => simp [hdone, h2, hg] at hok
      | some cap =>
          cases hw : s.writer with
          | none =>
              simp [hdone, h2, hg, hw, upd, mkConsumer, isFinalizeEv]
          | some k =>
              by_cases hrel : s.writerReleased
              · simp [hdone, h2, hg, hw, hrel, upd, mkConsumer,
                  isFinalizeEv]
              · simp [hdone, h2, hg, hw, hrel, upd, mkConsumer,
                  isFinalizeEv, apply_ite Consumer.locked, ite_self]
    · cases hg : s.caps[s.idx]? with
      | none => simp [hdone, h2, hg] at hok
      | some cap =>
          cases hw : s.writer with
          | none =>
              simp [hdone, h2, hg, hw, upd, mkConsumer, isFinalizeEv]
          | some k =>
              by_cases hrel : s.writerReleased
              · simp [hdone, h2, hg, hw, hrel, upd, mkConsumer,
                  isFinalizeEv]
              · simp [hdone, h2, hg, hw, hrel, upd, mkConsumer,
                  isFinalizeEv, apply_ite Consumer.locked, ite_self]


/-- Witness for C5 at the concrete generator mid-run state. -/
theorem c5_pull_then_release_witness :
    (c5sink.started = true ∧
     (c5sink.next (some JsError.undef)).1 = Except.ok 1) ∧
    ((c5sink.next (some JsError.undef)).2.2 =
      [Ev.iterNextCall (some JsError.undef)] ++
        (if c5sink.kind = SupplyKind.gen ∧ 0 < c5sink.idx then
          [Ev.cleanupRun (c5sink.idx - 1)] else []) ++
        (match c5sink.writer with
         | some i => if c5sink.writerReleased then [] else [Ev.release i]
         | none => []) ++
        [Ev.acquire c5sink.idx] ∧
     ((c5sink.next (some JsError.undef)).2.2).filter isFinalizeEv = []) :=
  ⟨⟨by decide, by decide⟩,
   c5_pull_then_release c5sink (some JsError.undef) (by decide)
     ⟨1, by decide⟩⟩

/-- C6: close signals completion into the cursor first, then — unless
`preventClose` — closes the active consumer, then releases the handle;
with `preventClose` the cursor is still signalled and the handle released
but the consumer is not closed. -/
theorem c6_close_order (s : Sink) (i : Nat) (hw : s.writer = some i)
    (hrel : s.writerReleased = false) (hne : (s.cons i).errored = none)
    (hnc : (s.cons i).closed = false) :
    (s.close).1 = Except.ok () ∧
    (s.preventClose = false →
      (s.close).2.2 =
        (s.iterReturn).2 ++ [Ev.targetClose i, Ev.release i] ∧
      ((s.close).2.1.cons i).closed = true) ∧
    (s.preventClose = true →
      (s.close).2.2 = (s.iterReturn).2 ++ [Ev.release i] ∧
      ((s.close).2.1.cons i).closed = false) ∧
    ((s.close).2.1.cons i).locked = false ∧
    (s.close).2.1.cleanups = (s.iterReturn).1.cleanups := by
  have hIR := iterReturn_frame s
  unfold Sink.close
  rcases hir : s.iterReturn with ⟨s1, ev1⟩
  simp only [hir] at hIR ⊢
  obtain ⟨hc1, hw1, hr1, hcaps1, hpc1⟩ := hIR
  unfold Sink.writerClose Sink.releaseCurrent
  rw [hw1, hw, hr1, hrel, hc1]
  by_cases hpc : s.preventClose
  · simp [hpc1, hpc, hne, hnc, upd]
  · simp [hpc1, hpc, hne, hnc, upd]


/-- A freshly started generator-supply sink with two consumers. -/
def c6sink : Sink := afterStart SupplyKind.gen [2, 2]

/-- Witness for C6 at a freshly started generator-supply sink. -/
theorem c6_close_order_witness :
    (c6sink.writer = some 0 ∧ c6sink.writerReleased = false ∧
     (c6sink.cons 0).errored = none ∧ (c6sink.cons 0).closed = false) ∧
    ((c6sink.close).1 = Except.ok () ∧
     (c6sink.preventClose = false →
       (c6sink.close).2.2 =
         (c6sink.iterReturn).2 ++ [Ev.targetClose 0, Ev.release 0] ∧
       ((c6sink.close).2.1.cons 0).closed = true) ∧
     (c6sink.preventClose = true →
       (c6sink.close).2.2 = (c6sink.iterReturn).2 ++ [Ev.release 0] ∧
       ((c6sink.close).2.1.cons 0).closed = false) ∧
     ((c6sink.close).2.1.cons 0).locked = false ∧
     (c6sink.close).2.1.cleanups = (c6sink.iterReturn).1.cleanups) :=
  ⟨⟨by decide, by decide, by decide, by decide⟩,
   c6_close_order c6sink 0 (by decide) (by decide) (by decide) (by decide)⟩

/-- C7: abort first signals failure into the cursor with the same reason,
swallowing anything the cursor throws, then — unless `preventAbort` —
aborts the active consumer with that reason, then releases the handle. -/
theorem c7_abort_order (s : Sink) (i : Nat) (r : JsError)
    (hw : s.writer = some i) (hrel : s.writerReleased = false)
    (hne : (s.cons i).errored = none) (hnc : (s.cons i).closed = false) :
    (s.abort r).1 = Except.ok () ∧
    (s.preventAbort = false →
      (s.abort r).2.2 =
        (s.iterThrow r).2.2 ++ [Ev.targetAbort i r, Ev.release i] ∧
      ((s.abort r).2.1.cons i).aborted = true ∧
      ((s.abort r).2.1.cons i).errored = some r) ∧
    (s.preventAbort = true →
      (s.abort r).2.2 = (s.iterThrow r).2.2 ++ [Ev.release i] ∧
      ((s.abort r).2.1.cons i).aborted = (s.cons i).aborted) ∧
    ((s.abort r).2.1.cons i).locked = false ∧
    (s.kind = SupplyKind.gen → (s.iterThrow r).1 = true ∧
      Ev.iterThrowCall r ∈ (s.abort r).2.2) := by
  have hIT := iterThrow_frame s r
  have hthrow : s.kind = SupplyKind.gen → (s.iterThrow r).1 = true ∧
      Ev.iterThrowCall r ∈ (s.iterThrow r).2.2 := by
    intro hk
    unfold Sink.iterThrow
    rw [hk]
    split
    · simp_all
    · split <;> simp
  unfold Sink.abort
  rcases hit : s.iterThrow r with ⟨b, s1, ev1⟩
  simp only [hit] at hIT hthrow ⊢
  obtain ⟨hc1, hw1, hr1, hcaps1, hpa1⟩ := hIT
  unfold Sink.writerAbort Sink.releaseCurrent
  rw [hw1, hw, hr1, hrel, hc1]
  by_cases hpa : s.preventAbort
  · simp [hpa1, hpa, hne, hnc, upd, hthrow]
    exact hthrow
  · simp [hpa1, hpa, hne, hnc, upd, hthrow]
    exact hthrow


/-- Witness for C7 at a freshly started generator-supply sink. -/
theorem c7_abort_order_witness :
    (c6sink.writer = some 0 ∧ c6sink.writerReleased = false ∧
     (c6sink.cons 0).errored = none ∧ (c6sink.cons 0).closed = false) ∧
    ((c6sink.abort JsError.undef).1 = Except.ok () ∧
     (c6sink.preventAbort = false →
       (c6sink.abort JsError.undef).2.2 =
         (c6sink.iterThrow JsError.undef).2.2 ++
           [Ev.targetAbort 0 JsError.undef, Ev.release 0] ∧
       ((c6sink.abort JsError.undef).2.1.cons 0).aborted = true ∧
       ((c6sink.abort JsError.undef).2.1.cons 0).errored =
         some JsError.undef) ∧
     (c6sink.preventAbort = true →
       (c6sink.abort JsError.undef).2.2 =
         (c6sink.iterThrow JsError.undef).2.2 ++ [Ev.release 0] ∧
       ((c6sink.abort JsError.undef).2.1.cons 0).aborted =
         (c6sink.cons 0).aborted) ∧
     ((c6sink.abort JsError.undef).2.1.cons 0).locked = false ∧
     (c6sink.kind = SupplyKind.gen →
       (c6sink.iterThrow JsError.undef).1 = true ∧
       Ev.iterThrowCall JsError.undef ∈ (c6sink.abort JsError.undef).2.2)) :=
  ⟨⟨by decide, by decide, by decide, by decide⟩,
   c7_abort_order c6sink 0 JsError.undef (by decide) (by decide)
     (by decide) (by decide)⟩

/-- C9 counterexample: a second close on an already-closed sink and a
second abort on an already-aborted sink both reject with a TypeError from
the released handle, raising past the call. -/
theorem c9_counterexample :
    ((pipeConcat SupplyKind.array [2] false false [7]).2.close).1 =
      Except.error (JsError.typeError "Writer released") ∧
    (((afterStart SupplyKind.gen [2]).abort JsError.undef).2.1.abort
        JsError.undef).1 =
      Except.error (JsError.typeError "Writer released") := by decide

/-- C9 (amended): with `preventClose` (resp. `preventAbort`) set, repeated
close (resp. abort) calls return normally; without the flag, a repeat
termination call on a sink whose handle was already released rejects with
a TypeError from forwarding close/abort to the released handle. -/
theorem c9_repeat_termination (s : Sink) :
    (s.preventClose = true → (s.close).1 = Except.ok ()) ∧
    (∀ r, s.preventAbort = true → (s.abort r).1 = Except.ok ()) ∧
    (∀ i, s.preventClose = false → s.writer = some i →
      s.writerReleased = true →
      (s.close).1 = Except.error (JsError.typeError "Writer released")) ∧
    (∀ r i, s.preventAbort = false → s.writer = some i →
      s.writerReleased = true →
      (s.abort r).1 = Except.error (JsError.typeError "Writer released")) := by
  have hIR := iterReturn_frame s
  rcases hir : s.iterReturn with ⟨s1, ev1⟩
  rw [hir] at hIR
  obtain ⟨hc1, hw1, hr1, hcaps1, hpc1⟩ := hIR
  have hw1b : s1.writer = s.writer := hw1
  have hr1b : s1.writerReleased = s.writerReleased := hr1
  have hpc1b : s1.preventClose = s.preventClose := hpc1
  refine ⟨?_, ?_, ?_, ?_⟩
  · intro hpc
    unfold Sink.close
    rcases hrel : s1.releaseCurrent with ⟨s2, ev2⟩
    simp [hir, hpc1b, hpc, hrel]
  · intro r hpa
    have hITf := iterThrow_frame s r
    rcases hit : s.iterThrow r with ⟨b, s1b, ev1b⟩
    rw [hit] at hITf
    have hpab : s1b.preventAbort = s.preventAbort := hITf.2.2.2.2
    unfold Sink.abort
    rcases hrel : s1b.releaseCurrent with ⟨s2, ev2⟩
    simp [hit, hpab, hpa, hrel]
  · intro i hpc hw hrel2
    unfold Sink.close Sink.writerClose
    simp [hir, hpc1b, hpc, hw1b, hw, hr1b, hrel2]
  · intro r i hpa hw hrel2
    have hITf := iterThrow_frame s r
    rcases hit : s.iterThrow r with ⟨b, s1b, ev1b⟩
    rw [hit] at hITf
    have hpab : s1b.preventAbort = s.preventAbort := hITf.2.2.2.2
    have hwb : s1b.writer = s.writer := hITf.2.1
    have hrb : s1b.writerReleased = s.writerReleased := hITf.2.2.1
    unfold Sink.abort Sink.writerAbort
    simp [hit, hwb, hrb, hpab, hpa, hw, hrel2]

/-- Witness for C9: the doubled termination calls on concrete sinks. -/
theorem c9_repeat_termination_witness :
    (((pipeConcat SupplyKind.array [2] false false [7]).2.preventClose =
        false ∧
      (pipeConcat SupplyKind.array [2] false false [7]).2.writer = some 0 ∧
      (pipeConcat SupplyKind.array [2] false false
        [7]).2.writerReleased = true) ∧
     ((pipeConcat SupplyKind.array [2] false false [7]).2.close).1 =
       Except.error (JsError.typeError "Writer released")) ∧
    ((((initSink SupplyKind.array [2] true false).start).2.1.preventClose =
        true) ∧
     ((((initSink SupplyKind.array [2] true
        false).start).2.1.close)).1 = Except.ok ()) :=
  ⟨⟨⟨by decide, by decide, by decide⟩,
    (c9_repeat_termination
      (pipeConcat SupplyKind.array [2] false false [7]).2).2.2.1 0
      (by decide) (by decide) (by decide)⟩,
   ⟨by decide,
    (c9_repeat_termination
      ((initSink SupplyKind.array [2] true false).start).2.1).1
      (by decide)⟩⟩

end ConcatWS
